import Mathlib

/-!
# Verification of the air-gap-signer core against its specification

This file gives a shallow embedding, in Lean, of the parts of the
`air-gap-signer` Rust sources relevant to the frozen claims:

* `crates/signer-core/src/spec.rs` — descriptor data model and its CBOR
  encoding (via the `ciborium` + `serde` derive pipeline, whose byte-level
  behaviour on this schema is modelled here);
* `crates/signer-core/src/crypto.rs` — `extract_signable` and `hash_bytes`;
* `crates/signer-core/src/wasm_sandbox.rs` — the host-side validation of
  guest result pointers in `interpret` and `assemble`;
* `crates/signer-core/src/display.rs` — `json_to_lines` / `flatten`;
* `crates/signer-sim/src/keystore.rs` — the simulated secure element;
* `crates/signer-sim/src/flow.rs` — PIN entry and the review scroll loop.

Machine integers (`usize`, `u8`, `u32`, `u64`) are embedded as `Nat` with
explicit reduction modulo `2^w` exactly where the Rust release-profile
wrapping semantics applies; Rust panics (slice-bound violations, which occur
in both debug and release profiles on the inputs used below) are modelled
as an explicit `crash` outcome distinct from a returned error.

The cryptographic primitives used by the code through its library
dependencies (`sha2`, `blake2`, `sha3`, `ed25519_dalek`) are implemented
here in full from their standards (FIPS 180-4, RFC 7693, FIPS 202,
RFC 8032) so that no part of the behaviour is stubbed.
-/

/-! ## Byte- and word-level helpers

Bytes are `Nat` values below 256; words are `Nat` values below `2^32` or
`2^64`.  All word arithmetic reduces modulo the word size explicitly. -/

/-- `2^32`, the `u32` modulus. -/
def M32 : Nat := 4294967296

/-- `2^64`, the `u64` modulus. -/
def M64 : Nat := 18446744073709551616

/-- `2^64`, the `usize` modulus of the 64-bit target. -/
def USIZE : Nat := 18446744073709551616

/-- Right-rotation of a 32-bit word by `n` (for `0 < n < 32`). -/
def rotr32 (n x : Nat) : Nat := (x / 2 ^ n + x % 2 ^ n * 2 ^ (32 - n)) % M32

/-- Right-rotation of a 64-bit word by `n` (for `0 < n < 64`). -/
def rotr64 (n x : Nat) : Nat := (x / 2 ^ n + x % 2 ^ n * 2 ^ (64 - n)) % M64

/-- Left-rotation of a 64-bit word by `n` (for `n < 64`). -/
def rotl64 (n x : Nat) : Nat := (x % 2 ^ (64 - n) * 2 ^ n + x / 2 ^ (64 - n)) % M64

/-- Bitwise complement of a 64-bit word. -/
def not64 (x : Nat) : Nat := 18446744073709551615 ^^^ x

/-- Interpret a byte list as a little-endian natural number. -/
def leNum (l : List Nat) : Nat := l.foldr (fun b acc => b + 256 * acc) 0

/-- The `n` little-endian bytes of `x`. -/
def leBytes (n x : Nat) : List Nat :=
  (List.range n).map (fun i => x / 2 ^ (8 * i) % 256)

/-- The `n` big-endian bytes of `x`. -/
def beBytes (n x : Nat) : List Nat :=
  (List.range n).map (fun i => x / 2 ^ (8 * (n - 1 - i)) % 256)

/-- Split a list into chunks of 64 elements (the SHA-256 block size). -/
def chunks64 (l : List Nat) : List (List Nat) :=
  if l = [] then [] else l.take 64 :: chunks64 (l.drop 64)
termination_by l.length
decreasing_by cases l with
| nil => simp_all
| cons a t => simp; omega

/-- Split a list into chunks of 128 elements (the SHA-512 / BLAKE2b block
size). -/
def chunks128 (l : List Nat) : List (List Nat) :=
  if l = [] then [] else l.take 128 :: chunks128 (l.drop 128)
termination_by l.length
decreasing_by cases l with
| nil => simp_all
| cons a t => simp; omega

/-- Split a list into chunks of 136 elements (the SHA3-256 rate). -/
def chunks136 (l : List Nat) : List (List Nat) :=
  if l = [] then [] else l.take 136 :: chunks136 (l.drop 136)
termination_by l.length
decreasing_by cases l with
| nil => simp_all
| cons a t => simp; omega

/-- Modular exponentiation by binary splitting of the exponent. -/
def powMod (b e m : Nat) : Nat :=
  if e = 0 then 1 % m
  else
    let h := powMod b (e / 2) m
    if e % 2 = 0 then h * h % m else h * h % m * (b % m) % m
termination_by e
decreasing_by omega

/-! ## SHA-256 (FIPS 180-4)

Implements the `sha2::Sha256` digest used by `crypto.rs` (through
`hash_bytes`) and by `keystore.rs` (PIN hashing).  The state is the list of
the eight 32-bit working variables. -/

/-- The 64 SHA-256 round constants. -/
def sha256K : List Nat :=
  [1116352408, 1899447441, 3049323471, 3921009573,
   961987163, 1508970993, 2453635748, 2870763221,
   3624381080, 310598401, 607225278, 1426881987,
   1925078388, 2162078206, 2614888103, 3248222580,
   3835390401, 4022224774, 264347078, 604807628,
   770255983, 1249150122, 1555081692, 1996064986,
   2554220882, 2821834349, 2952996808, 3210313671,
   3336571891, 3584528711, 113926993, 338241895,
   666307205, 773529912, 1294757372, 1396182291,
   1695183700, 1986661051, 2177026350, 2456956037,
   2730485921, 2820302411, 3259730800, 3345764771,
   3516065817, 3600352804, 4094571909, 275423344,
   430227734, 506948616, 659060556, 883997877,
   958139571, 1322822218, 1537002063, 1747873779,
   1955562222, 2024104815, 2227730452, 2361852424,
   2428436474, 2756734187, 3204031479, 3329325298]

/-- The eight SHA-256 initial hash values. -/
def sha256H0 : List Nat :=
  [1779033703, 3144134277, 1013904242, 2773480762,
   1359893119, 2600822924, 528734635, 1541459225]

/-- SHA-256 small sigma 0. -/
def ssig0 (x : Nat) : Nat := rotr32 7 x ^^^ rotr32 18 x ^^^ x / 8

/-- SHA-256 small sigma 1. -/
def ssig1 (x : Nat) : Nat := rotr32 17 x ^^^ rotr32 19 x ^^^ x / 1024

/-- SHA-256 big sigma 0. -/
def bsig0 (x : Nat) : Nat := rotr32 2 x ^^^ rotr32 13 x ^^^ rotr32 22 x

/-- SHA-256 big sigma 1. -/
def bsig1 (x : Nat) : Nat := rotr32 6 x ^^^ rotr32 11 x ^^^ rotr32 25 x

/-- `Ch(x,y,z)` of FIPS 180-4. -/
def sha2Ch (x y z : Nat) : Nat := x &&& y ^^^ (not64 x &&& z)

/-- `Maj(x,y,z)` of FIPS 180-4. -/
def sha2Maj (x y z : Nat) : Nat := x &&& y ^^^ (x &&& z) ^^^ (y &&& z)

/-- The 16 big-endian 32-bit words of a 64-byte block. -/
def sha256Words (block : List Nat) : List Nat :=
  (List.range 16).map (fun t =>
    ((block.getD (4 * t) 0 * 256 + block.getD (4 * t + 1) 0) * 256 +
      block.getD (4 * t + 2) 0) * 256 + block.getD (4 * t + 3) 0)

/-- Extend 16 message words to the 64-entry SHA-256 message schedule. -/
def sha256Schedule (w16 : List Nat) : List Nat :=
  (List.range 48).foldl (fun w _ =>
    let t := w.length
    w ++ [(ssig1 (w.getD (t - 2) 0) + w.getD (t - 7) 0 +
           ssig0 (w.getD (t - 15) 0) + w.getD (t - 16) 0) % M32]) w16

/-- One SHA-256 round, consuming one constant and one schedule word. -/
def sha256Round (st : List Nat) (kw : Nat × Nat) : List Nat :=
  match st with
  | [a, b, c, d, e, f, g, h] =>
      let t1 := (h + bsig1 e + sha2Ch e f g + kw.1 + kw.2) % M32
      let t2 := (bsig0 a + sha2Maj a b c) % M32
      [(t1 + t2) % M32, a, b, c, (d + t1) % M32, e, f, g]
  | _ => st

/-- SHA-256 compression of one 64-byte block into the running state. -/
def sha256Compress (st : List Nat) (block : List Nat) : List Nat :=
  let w := sha256Schedule (sha256Words block)
  let fin := (sha256K.zip w).foldl sha256Round st
  List.zipWith (fun x y => (x + y) % M32) st fin

/-- FIPS 180-4 padding: `0x80`, zeros, then the 64-bit big-endian bit
length, to a multiple of 64 bytes. -/
def sha256Pad (msg : List Nat) : List Nat :=
  msg ++ [128] ++ List.replicate ((119 - msg.length % 64) % 64) 0 ++
    beBytes 8 (8 * msg.length)

/-- SHA-256 digest (32 bytes) of a byte list. -/
def sha256 (msg : List Nat) : List Nat :=
  let st := (chunks64 (sha256Pad msg)).foldl sha256Compress sha256H0
  (List.range 32).map (fun i => st.getD (i / 4) 0 / 2 ^ (8 * (3 - i % 4)) % 256)

/-! ## SHA-512 (FIPS 180-4)

Needed by the RFC 8032 Ed25519 signing procedure (`ed25519_dalek`). -/

/-- The 80 SHA-512 round constants. -/
def sha512K : List Nat :=
  [4794697086780616226, 8158064640168781261, 13096744586834688815,
   16840607885511220156, 4131703408338449720, 6480981068601479193,
   10538285296894168987, 12329834152419229976, 15566598209576043074,
   1334009975649890238, 2608012711638119052, 6128411473006802146,
   8268148722764581231, 9286055187155687089, 11230858885718282805,
   13951009754708518548, 16472876342353939154, 17275323862435702243,
   1135362057144423861, 2597628984639134821, 3308224258029322869,
   5365058923640841347, 6679025012923562964, 8573033837759648693,
   10970295158949994411, 12119686244451234320, 12683024718118986047,
   13788192230050041572, 14330467153632333762, 15395433587784984357,
   489312712824947311, 1452737877330783856, 2861767655752347644,
   3322285676063803686, 5560940570517711597, 5996557281743188959,
   7280758554555802590, 8532644243296465576, 9350256976987008742,
   10552545826968843579, 11727347734174303076, 12113106623233404929,
   14000437183269869457, 14369950271660146224, 15101387698204529176,
   15463397548674623760, 17586052441742319658, 1182934255886127544,
   1847814050463011016, 2177327727835720531, 2830643537854262169,
   3796741975233480872, 4115178125766777443, 5681478168544905931,
   6601373596472566643, 7507060721942968483, 8399075790359081724,
   8693463985226723168, 9568029438360202098, 10144078919501101548,
   10430055236837252648, 11840083180663258601, 13761210420658862357,
   14299343276471374635, 14566680578165727644, 15097957966210449927,
   16922976911328602910, 17689382322260857208, 500013540394364858,
   748580250866718886, 1242879168328830382, 1977374033974150939,
   2944078676154940804, 3659926193048069267, 4368137639120453308,
   4836135668995329356, 5532061633213252278, 6448918945643986474,
   6902733635092675308, 7801388544844847127]

/-- The eight SHA-512 initial hash values (also the BLAKE2b IV). -/
def sha512H0 : List Nat :=
  [7640891576956012808, 13503953896175478587, 4354685564936845355,
   11912009170470909681, 5840696475078001361, 11170449401992604703,
   2270897969802886507, 6620516959819538809]

/-- SHA-512 small sigma 0. -/
def ssig0w (x : Nat) : Nat := rotr64 1 x ^^^ rotr64 8 x ^^^ x / 128

/-- SHA-512 small sigma 1. -/
def ssig1w (x : Nat) : Nat := rotr64 19 x ^^^ rotr64 61 x ^^^ x / 64

/-- SHA-512 big sigma 0. -/
def bsig0w (x : Nat) : Nat := rotr64 28 x ^^^ rotr64 34 x ^^^ rotr64 39 x

/-- SHA-512 big sigma 1. -/
def bsig1w (x : Nat) : Nat := rotr64 14 x ^^^ rotr64 18 x ^^^ rotr64 41 x

/-- The 16 big-endian 64-bit words of a 128-byte block. -/
def sha512Words (block : List Nat) : List Nat :=
  (List.range 16).map (fun t =>
    (List.range 8).foldl (fun acc j => acc * 256 + block.getD (8 * t + j) 0) 0)

/-- Extend 16 message words to the 80-entry SHA-512 message schedule. -/
def sha512Schedule (w16 : List Nat) : List Nat :=
  (List.range 64).foldl (fun w _ =>
    let t := w.length
    w ++ [(ssig1w (w.getD (t - 2) 0) + w.getD (t - 7) 0 +
           ssig0w (w.getD (t - 15) 0) + w.getD (t - 16) 0) % M64]) w16

/-- One SHA-512 round. -/
def sha512Round (st : List Nat) (kw : Nat × Nat) : List Nat :=
  match st with
  | [a, b, c, d, e, f, g, h] =>
      let t1 := (h + bsig1w e + sha2Ch e f g + kw.1 + kw.2) % M64
      let t2 := (bsig0w a + sha2Maj a b c) % M64
      [(t1 + t2) % M64, a, b, c, (d + t1) % M64, e, f, g]
  | _ => st

/-- SHA-512 compression of one 128-byte block. -/
def sha512Compress (st : List Nat) (block : List Nat) : List Nat :=
  let w := sha512Schedule (sha512Words block)
  let fin := (sha512K.zip w).foldl sha512Round st
  List.zipWith (fun x y => (x + y) % M64) st fin

/-- SHA-512 padding: `0x80`, zeros, then the 128-bit big-endian bit length,
to a multiple of 128 bytes. -/
def sha512Pad (msg : List Nat) : List Nat :=
  msg ++ [128] ++ List.replicate ((239 - msg.length % 128) % 128) 0 ++
    beBytes 16 (8 * msg.length)

/-- SHA-512 digest (64 bytes) of a byte list. -/
def sha512 (msg : List Nat) : List Nat :=
  let st := (chunks128 (sha512Pad msg)).foldl sha512Compress sha512H0
  (List.range 64).map (fun i => st.getD (i / 8) 0 / 2 ^ (8 * (7 - i % 8)) % 256)

/-! ## BLAKE2b-256 (RFC 7693)

Implements `blake2::Blake2b<U32>` as used by `hash_bytes` for
`HashAlgorithm::Blake2b256` (unkeyed, 32-byte digest). -/

/-- The BLAKE2b message schedule: ten permutations of `0..15`. -/
def blakeSigma : List (List Nat) :=
  [[0, 1, 2, 3, 4, 5, 6, 7, 8, 9, 10, 11, 12, 13, 14, 15],
   [14, 10, 4, 8, 9, 15, 13, 6, 1, 12, 0, 2, 11, 7, 5, 3],
   [11, 8, 12, 0, 5, 2, 15, 13, 10, 14, 3, 6, 7, 1, 9, 4],
   [7, 9, 3, 1, 13, 12, 11, 14, 2, 6, 5, 10, 4, 0, 15, 8],
   [9, 0, 5, 7, 2, 4, 10, 15, 14, 1, 11, 12, 6, 8, 3, 13],
   [2, 12, 6, 10, 0, 11, 8, 3, 4, 13, 7, 5, 15, 14, 1, 9],
   [12, 5, 1, 15, 14, 13, 4, 10, 0, 7, 6, 3, 9, 2, 8, 11],
   [13, 11, 7, 14, 12, 1, 3, 9, 5, 0, 15, 4, 8, 6, 2, 10],
   [6, 15, 14, 9, 11, 3, 0, 8, 12, 2, 13, 7, 1, 4, 10, 5],
   [10, 2, 8, 4, 7, 6, 1, 5, 15, 11, 9, 14, 3, 12, 13, 0]]

/-- The BLAKE2b mixing function `G` acting on the 16-word work vector at
indices `a b c d` with message words `x y`. -/
def blakeG (v : List Nat) (a b c d x y : Nat) : List Nat :=
  let va := (v.getD a 0 + v.getD b 0 + x) % M64
  let vd := rotr64 32 (v.getD d 0 ^^^ va)
  let vc := (v.getD c 0 + vd) % M64
  let vb := rotr64 24 (v.getD b 0 ^^^ vc)
  let va := (va + vb + y) % M64
  let vd := rotr64 16 (vd ^^^ va)
  let vc := (vc + vd) % M64
  let vb := rotr64 63 (vb ^^^ vc)
  ((((v.set a va).set b vb).set c vc).set d vd)

/-- One BLAKE2b round with message words `m` under schedule row `s`. -/
def blakeRound (m : List Nat) (v : List Nat) (s : List Nat) : List Nat :=
  let g := fun v (abcdij : Nat × Nat × Nat × Nat × Nat × Nat) =>
    match abcdij with
    | (a, b, c, d, i, j) => blakeG v a b c d (m.getD (s.getD i 0) 0) (m.getD (s.getD j 0) 0)
  [((0 : Nat), (4 : Nat), (8 : Nat), (12 : Nat), (0 : Nat), (1 : Nat)),
   (1, 5, 9, 13, 2, 3), (2, 6, 10, 14, 4, 5), (3, 7, 11, 15, 6, 7),
   (0, 5, 10, 15, 8, 9), (1, 6, 11, 12, 10, 11),
   (2, 7, 8, 13, 12, 13), (3, 4, 9, 14, 14, 15)].foldl g v

/-- The 16 little-endian 64-bit words of a 128-byte block. -/
def blakeWords (block : List Nat) : List Nat :=
  (List.range 16).map (fun t =>
    (List.range 8).foldl (fun acc j => acc + block.getD (8 * t + j) 0 * 2 ^ (8 * j)) 0)

/-- The BLAKE2b compression function `F(h, m, t, f)` (RFC 7693 section
3.2), with byte counter `t` and final-block flag `last`. -/
def blakeCompress (h : List Nat) (m : List Nat) (t : Nat) (last : Bool) : List Nat :=
  let v := h ++ sha512H0
  let v := v.set 12 (v.getD 12 0 ^^^ t % M64)
  let v := v.set 13 (v.getD 13 0 ^^^ t / M64 % M64)
  let v := if last then v.set 14 (not64 (v.getD 14 0)) else v
  let v := (List.range 12).foldl (fun v i => blakeRound m v (blakeSigma.getD (i % 10) [])) v
  (List.range 8).map (fun i => h.getD i 0 ^^^ v.getD i 0 ^^^ v.getD (i + 8) 0)

/-- Sequentially compress the data blocks: every block but the last with a
running byte counter, the zero-padded last block with the total length and
the final flag. -/
def blakeBlocks (h : List Nat) (bs : List (List Nat)) (off total : Nat) : List Nat :=
  match bs with
  | [] => h
  | [b] => blakeCompress h (blakeWords (b ++ List.replicate (128 - b.length) 0)) total true
  | b :: rest => blakeBlocks (blakeCompress h (blakeWords b) (off + 128) false) rest (off + 128) total

/-- BLAKE2b-256 digest (32 bytes, unkeyed) of a byte list.  The parameter
block XORs `0x01010020` into the first IV word (digest length 32, no key,
fanout 1, depth 1); an empty message is processed as a single zero block. -/
def blake2b256 (msg : List Nat) : List Nat :=
  let h0 := sha512H0.set 0 (sha512H0.getD 0 0 ^^^ 16842784)
  let bs := if msg = [] then [[]] else chunks128 msg
  let h := blakeBlocks h0 bs 0 msg.length
  (List.range 32).map (fun i => h.getD (i / 8) 0 / 2 ^ (8 * (i % 8)) % 256)

/-! ## SHA3-256 (FIPS 202)

Implements `sha3::Sha3_256` as used by `hash_bytes` for
`HashAlgorithm::Sha3_256`.  The Keccak state is the list of 25 lanes in
index order `x + 5 * y`. -/

/-- The 24 Keccak round constants. -/
def keccakRC : List Nat :=
  [1, 32898, 9223372036854808714,
   9223372039002292224, 32907, 2147483649,
   9223372039002292353, 9223372036854808585, 138,
   136, 2147516425, 2147483658,
   2147516555, 9223372036854775947, 9223372036854808713,
   9223372036854808579, 9223372036854808578, 9223372036854775936,
   32778, 9223372039002259466, 9223372039002292353,
   9223372036854808704, 2147483649, 9223372039002292232]

/-- The Keccak rotation offsets, indexed as `rotOff x y` for lane `(x,y)`. -/
def rotOff (x y : Nat) : Nat :=
  [[0, 36, 3, 41, 18],
   [1, 44, 10, 45, 2],
   [62, 6, 43, 15, 61],
   [28, 55, 25, 21, 56],
   [27, 20, 39, 8, 14]].getD x [] |>.getD y 0

/-- The Keccak theta step. -/
def keccakTheta (a : List Nat) : List Nat :=
  let c := (List.range 5).map (fun x =>
    a.getD x 0 ^^^ a.getD (x + 5) 0 ^^^ a.getD (x + 10) 0 ^^^
      a.getD (x + 15) 0 ^^^ a.getD (x + 20) 0)
  let d := (List.range 5).map (fun x =>
    c.getD ((x + 4) % 5) 0 ^^^ rotl64 1 (c.getD ((x + 1) % 5) 0))
  (List.range 25).map (fun i => a.getD i 0 ^^^ d.getD (i % 5) 0)

/-- The combined Keccak rho and pi steps: the result lane `(xB, yB)` is the
rotated source lane `(xB + 3*yB mod 5, xB)`. -/
def keccakRhoPi (a : List Nat) : List Nat :=
  (List.range 25).map (fun i =>
    let xB := i % 5
    let yB := i / 5
    let x := (xB + 3 * yB) % 5
    let y := xB
    rotl64 (rotOff x y) (a.getD (x + 5 * y) 0))

/-- The Keccak chi step. -/
def keccakChi (b : List Nat) : List Nat :=
  (List.range 25).map (fun i =>
    let x := i % 5
    let y := i / 5
    b.getD i 0 ^^^ (not64 (b.getD ((x + 1) % 5 + 5 * y) 0) &&& b.getD ((x + 2) % 5 + 5 * y) 0))

/-- One Keccak-f round followed by the iota constant injection. -/
def keccakRound (a : List Nat) (rc : Nat) : List Nat :=
  let b := keccakChi (keccakRhoPi (keccakTheta a))
  b.set 0 (b.getD 0 0 ^^^ rc)

/-- The Keccak-f[1600] permutation (24 rounds). -/
def keccakF (a : List Nat) : List Nat := keccakRC.foldl keccakRound a

/-- Absorb one 136-byte block into the state (XOR into the first 17 lanes,
little-endian within each lane) and permute. -/
def keccakAbsorb (a : List Nat) (block : List Nat) : List Nat :=
  keccakF ((List.range 25).map (fun i =>
    if i < 17 then
      a.getD i 0 ^^^ (List.range 8).foldl
        (fun acc j => acc + block.getD (8 * i + j) 0 * 2 ^ (8 * j)) 0
    else a.getD i 0))

/-- FIPS 202 padding for SHA3 (domain byte `0x06`, final bit `0x80`) to a
multiple of the 136-byte rate. -/
def sha3Pad (msg : List Nat) : List Nat :=
  if msg.length % 136 = 135 then msg ++ [134]
  else msg ++ [6] ++ List.replicate (134 - msg.length % 136) 0 ++ [128]

/-- SHA3-256 digest (32 bytes) of a byte list. -/
def sha3_256 (msg : List Nat) : List Nat :=
  let a := (chunks136 (sha3Pad msg)).foldl keccakAbsorb (List.replicate 25 0)
  (List.range 32).map (fun i => a.getD (i / 8) 0 / 2 ^ (8 * (i % 8)) % 256)

/-! ## Ed25519 signing (RFC 8032)

Implements the deterministic Ed25519 signature computed by
`ed25519_dalek::SigningKey::from_bytes(seed).sign(message)`, used by
`crypto.rs::sign_ed25519` and `keystore.rs::sign`.  Curve points are kept
in extended homogeneous coordinates `(X, Y, Z, T)` over `GF(2^255 - 19)`. -/

/-- The field prime `2^255 - 19`. -/
def edP : Nat := 57896044618658097711785492504343953926634992332820282019728792003956564819949

/-- The group order `2^252 + 27742317777372353535851937790883648493`. -/
def edL : Nat := 7237005577332262213973186563042994240857116359379907606001950938285454250989

/-- The curve constant `d = -121665/121666 mod p`. -/
def edD : Nat := 37095705934669439343138083508754565189542113879843219016388785533085940283555

/-- A point in extended homogeneous coordinates. -/
structure EdPoint where
  x : Nat
  y : Nat
  z : Nat
  t : Nat
deriving Repr, DecidableEq

/-- The neutral element. -/
def edZero : EdPoint := ⟨0, 1, 1, 0⟩

/-- The base point `B`. -/
def edB : EdPoint :=
  ⟨15112221349535400772501151409588531511454012693041857206046113283949847762202,
   46316835694926478169428394003475163141307993866256225615783033603165251855960,
   1,
   15112221349535400772501151409588531511454012693041857206046113283949847762202 *
     46316835694926478169428394003475163141307993866256225615783033603165251855960 % edP⟩

/-- Subtraction in `GF(p)`. -/
def fsub (a b : Nat) : Nat := (a + edP - b % edP) % edP

/-- Unified point addition on the twisted Edwards curve with `a = -1`
(formula add-2008-hwcd-3). -/
def pAdd (p1 p2 : EdPoint) : EdPoint :=
  let a := fsub p1.y p1.x * fsub p2.y p2.x % edP
  let b := (p1.y + p1.x) % edP * ((p2.y + p2.x) % edP) % edP
  let c := p1.t * (2 * edD % edP) % edP * p2.t % edP
  let d := p1.z * 2 % edP * p2.z % edP
  let e := fsub b a
  let f := fsub d c
  let g := (d + c) % edP
  let h := (b + a) % edP
  ⟨e * f % edP, g * h % edP, f * g % edP, e * h % edP⟩

/-- Point doubling (formula dbl-2008-hwcd with `a = -1`). -/
def pDouble (p1 : EdPoint) : EdPoint :=
  let a := p1.x * p1.x % edP
  let b := p1.y * p1.y % edP
  let c := 2 * (p1.z * p1.z % edP) % edP
  let d := fsub 0 a
  let e := fsub (fsub ((p1.x + p1.y) % edP * ((p1.x + p1.y) % edP) % edP) a) b
  let g := (d + b) % edP
  let f := fsub g c
  let h := fsub d b
  ⟨e * f % edP, g * h % edP, f * g % edP, e * h % edP⟩

/-- Scalar multiplication by binary splitting. -/
def pMul (k : Nat) (p1 : EdPoint) : EdPoint :=
  if k = 0 then edZero
  else
    let q := pDouble (pMul (k / 2) p1)
    if k % 2 = 1 then pAdd q p1 else q
termination_by k
decreasing_by omega

/-- Compressed 32-byte encoding: the little-endian `y` coordinate with the
parity of `x` in the top bit. -/
def encodePoint (p1 : EdPoint) : List Nat :=
  let zi := powMod p1.z (edP - 2) edP
  let x := p1.x * zi % edP
  let y := p1.y * zi % edP
  leBytes 32 (y + x % 2 * 2 ^ 255)

/-- RFC 8032 secret-scalar clamping of a 256-bit little-endian value. -/
def edClamp (n : Nat) : Nat := 2 ^ 254 + 8 * (n % 2 ^ 254 / 8)

/-- Deterministic Ed25519 signature (64 bytes) of `msg` under the 32-byte
`seed` (RFC 8032, as computed by `ed25519_dalek`). -/
def ed25519Sign (seed msg : List Nat) : List Nat :=
  let h := sha512 seed
  let a := edClamp (leNum (h.take 32))
  let pfx := h.drop 32
  let pubA := encodePoint (pMul a edB)
  let r := leNum (sha512 (pfx ++ msg)) % edL
  let bigR := encodePoint (pMul r edB)
  let k := leNum (sha512 (bigR ++ pubA ++ msg)) % edL
  let s := (r + k * a) % edL
  bigR ++ leBytes 32 s

/-! ## Descriptor data model (`spec.rs`)

Rust `String` values are embedded as their UTF-8 byte lists; `usize` fields
as `Nat` (well-formed values are below `2^64`); `u8` as `Nat` below 256. -/

/-- `spec.rs::HashAlgorithm`. -/
inductive HashAlgorithm where
  | Blake2b256
  | Sha256
  | Sha3_256
deriving Repr, DecidableEq

/-- `spec.rs::SignAlgorithm`. -/
inductive SignAlgorithm where
  | Ed25519
  | Secp256k1Ecdsa
  | Secp256k1Schnorr
deriving Repr, DecidableEq

/-- `spec.rs::SignableSource`. -/
inductive SignableSource where
  | Whole
  | Range (offset length : Nat)
deriving Repr, DecidableEq

/-- `spec.rs::Signable`. -/
inductive Signable where
  | Whole
  | Range (offset length : Nat)
  | HashThenSign (hash : HashAlgorithm) (source : SignableSource)
deriving Repr, DecidableEq

/-- `spec.rs::OutputSpec`. -/
inductive OutputSpec where
  | SignatureOnly
  | AppendToPayload
  | WasmAssemble
deriving Repr, DecidableEq

/-- `spec.rs::SigningSpec`; `label` is the UTF-8 byte list of the Rust
`String`. -/
structure SigningSpec where
  label : List Nat
  signable : Signable
  algorithm : SignAlgorithm
  key_slot : Nat
  output : OutputSpec
deriving Repr, DecidableEq

/-- Range fields of a `Signable` fit in `usize`. -/
def Signable.rangesOk : Signable → Prop
  | .Range o l => o < USIZE ∧ l < USIZE
  | .HashThenSign _ (.Range o l) => o < USIZE ∧ l < USIZE
  | _ => True

instance : (s : Signable) → Decidable s.rangesOk
  | .Whole => inferInstanceAs (Decidable True)
  | .Range _ _ => inferInstanceAs (Decidable (_ ∧ _))
  | .HashThenSign _ .Whole => inferInstanceAs (Decidable True)
  | .HashThenSign _ (.Range _ _) => inferInstanceAs (Decidable (_ ∧ _))

/-- Well-formedness of the embedded `SigningSpec`: every machine integer
fits its Rust type (`String` lengths and `usize` fields below `2^64`,
`key_slot` a `u8`). -/
def SigningSpec.wf (d : SigningSpec) : Prop :=
  d.label.length < USIZE ∧ d.key_slot < 256 ∧ d.signable.rangesOk

instance (d : SigningSpec) : Decidable d.wf := by
  unfold SigningSpec.wf
  exact inferInstance

/-! ## Extract engine (`crypto.rs`)

`extract_signable` with the release-profile semantics of `offset + length`
(wrapping addition modulo `2^64`).  A Rust panic — here the slice
`payload[offset..end]` with `offset > end`, which panics in every build
profile (in debug builds the wrapping addition itself already panics on
overflow) — is the `crash` outcome, distinct from the returned
`RangeOutOfBounds` error. -/

/-- `crypto.rs::CryptoError` (the variants reachable from
`extract_signable`). -/
inductive CryptoError where
  | RangeOutOfBounds (offset finish payload_len : Nat)
deriving Repr, DecidableEq

/-- Outcome of a call to `extract_signable`: a returned value, a returned
error, or a Rust panic. -/
inductive ExtractOutcome where
  | ok (bytes : List Nat)
  | err (e : CryptoError)
  | crash
deriving Repr, DecidableEq

/-- `crypto.rs::hash_bytes`. -/
def hash_bytes (algo : HashAlgorithm) (data : List Nat) : List Nat :=
  match algo with
  | .Blake2b256 => blake2b256 data
  | .Sha256 => sha256 data
  | .Sha3_256 => sha3_256 data

/-- The common range-slicing step of `extract_signable`: compute
`end = offset + length` (wrapping modulo `2^64` in release builds), reject
when `end` exceeds the payload length, then take `payload[offset..end]` —
which panics when `offset > end`. -/
def sliceRange (payload : List Nat) (offset length : Nat) : ExtractOutcome :=
  let finish := (offset + length) % USIZE
  if finish > payload.length then
    .err (.RangeOutOfBounds offset finish payload.length)
  else if offset > finish then .crash
  else .ok ((payload.drop offset).take (finish - offset))

/-- `crypto.rs::extract_signable`. -/
def extract_signable (payload : List Nat) (signable : Signable) : ExtractOutcome :=
  match signable with
  | .Whole => .ok payload
  | .Range offset length => sliceRange payload offset length
  | .HashThenSign hash source =>
      match (match source with
             | .Whole => ExtractOutcome.ok payload
             | .Range offset length => sliceRange payload offset length) with
      | .ok source_bytes => .ok (hash_bytes hash source_bytes)
      | .err e => .err e
      | .crash => .crash

/-! ## Descriptor CBOR encoding (`spec.rs` + `ciborium`)

`SigningSpec::to_cbor` drives the serde-derived `Serialize` through
`ciborium::into_writer`, which for this schema deterministically emits:
a definite-length map of the five fields in declaration order, text-string
keys, minimally-encoded unsigned integers, unit enum variants as their
name's text string, and struct enum variants as a one-entry map from the
variant name to the map of its fields.  `SigningSpec::from_cbor` drives the
derived `Deserialize` through `ciborium::from_reader`, which reads exactly
one CBOR item and leaves any trailing bytes unread.  The decoder modelled
here covers the decoder's behaviour on encoder-produced prefixes (field
order as serialized); byte-for-byte it accepts what the encoder emits and
rejects malformed heads, like `ciborium` does. -/

/-- CBOR head for major type `m` and value `n`: minimal-length encoding as
emitted by `ciborium` (major type in the top three bits, then the value in
0, 1, 2, 4 or 8 big-endian bytes). -/
def cborHead (m n : Nat) : List Nat :=
  if n < 24 then [32 * m + n]
  else if n < 256 then [32 * m + 24, n]
  else if n < 65536 then [32 * m + 25, n / 256, n % 256]
  else if n < 4294967296 then
    [32 * m + 26, n / 16777216, n / 65536 % 256, n / 256 % 256, n % 256]
  else
    [32 * m + 27, n / 72057594037927936, n / 281474976710656 % 256,
     n / 1099511627776 % 256, n / 4294967296 % 256, n / 16777216 % 256,
     n / 65536 % 256, n / 256 % 256, n % 256]

/-- Encoded unsigned integer (major type 0). -/
def encUint (n : Nat) : List Nat := cborHead 0 n

/-- Encoded text string (major type 3): head with the byte length, then the
UTF-8 bytes. -/
def encText (s : List Nat) : List Nat := cborHead 3 s.length ++ s

/-- The UTF-8 bytes of "label". -/
def keyLabel : List Nat := [108, 97, 98, 101, 108]

/-- The UTF-8 bytes of "signable". -/
def keySignable : List Nat := [115, 105, 103, 110, 97, 98, 108, 101]

/-- The UTF-8 bytes of "algorithm". -/
def keyAlgorithm : List Nat := [97, 108, 103, 111, 114, 105, 116, 104, 109]

/-- The UTF-8 bytes of "key_slot". -/
def keyKeySlot : List Nat := [107, 101, 121, 95, 115, 108, 111, 116]

/-- The UTF-8 bytes of "output". -/
def keyOutput : List Nat := [111, 117, 116, 112, 117, 116]

/-- The UTF-8 bytes of "Whole". -/
def nameWhole : List Nat := [87, 104, 111, 108, 101]

/-- The UTF-8 bytes of "Range". -/
def nameRange : List Nat := [82, 97, 110, 103, 101]

/-- The UTF-8 bytes of "offset". -/
def keyOffset : List Nat := [111, 102, 102, 115, 101, 116]

/-- The UTF-8 bytes of "length". -/
def keyLength : List Nat := [108, 101, 110, 103, 116, 104]

/-- The UTF-8 bytes of "HashThenSign". -/
def nameHashThenSign : List Nat := [72, 97, 115, 104, 84, 104, 101, 110, 83, 105, 103, 110]

/-- The UTF-8 bytes of "hash". -/
def keyHash : List Nat := [104, 97, 115, 104]

/-- The UTF-8 bytes of "source". -/
def keySource : List Nat := [115, 111, 117, 114, 99, 101]

/-- The UTF-8 bytes of "Blake2b256". -/
def nameBlake2b256 : List Nat := [66, 108, 97, 107, 101, 50, 98, 50, 53, 54]

/-- The UTF-8 bytes of "Sha256". -/
def nameSha256 : List Nat := [83, 104, 97, 50, 53, 54]

/-- The UTF-8 bytes of "Sha3_256". -/
def nameSha3_256 : List Nat := [83, 104, 97, 51, 95, 50, 53, 54]

/-- The UTF-8 bytes of "Ed25519". -/
def nameEd25519 : List Nat := [69, 100, 50, 53, 53, 49, 57]

/-- The UTF-8 bytes of "Secp256k1Ecdsa". -/
def nameSecpEcdsa : List Nat := [83, 101, 99, 112, 50, 53, 54, 107, 49, 69, 99, 100, 115, 97]

/-- The UTF-8 bytes of "Secp256k1Schnorr". -/
def nameSecpSchnorr : List Nat :=
  [83, 101, 99, 112, 50, 53, 54, 107, 49, 83, 99, 104, 110, 111, 114, 114]

/-- The UTF-8 bytes of "SignatureOnly". -/
def nameSignatureOnly : List Nat := [83, 105, 103, 110, 97, 116, 117, 114, 101, 79, 110, 108, 121]

/-- The UTF-8 bytes of "AppendToPayload". -/
def nameAppendToPayload : List Nat :=
  [65, 112, 112, 101, 110, 100, 84, 111, 80, 97, 121, 108, 111, 97, 100]

/-- The UTF-8 bytes of "WasmAssemble". -/
def nameWasmAssemble : List Nat := [87, 97, 115, 109, 65, 115, 115, 101, 109, 98, 108, 101]

/-- Encoding of a `HashAlgorithm` (unit variant: its name as text). -/
def encHashAlg (h : HashAlgorithm) : List Nat :=
  match h with
  | .Blake2b256 => encText nameBlake2b256
  | .Sha256 => encText nameSha256
  | .Sha3_256 => encText nameSha3_256

/-- Encoding of a `SignAlgorithm`. -/
def encSignAlg (a : SignAlgorithm) : List Nat :=
  match a with
  | .Ed25519 => encText nameEd25519
  | .Secp256k1Ecdsa => encText nameSecpEcdsa
  | .Secp256k1Schnorr => encText nameSecpSchnorr

/-- Encoding of an `OutputSpec`. -/
def encOutputSpec (o : OutputSpec) : List Nat :=
  match o with
  | .SignatureOnly => encText nameSignatureOnly
  | .AppendToPayload => encText nameAppendToPayload
  | .WasmAssemble => encText nameWasmAssemble

/-- Encoding of the two-field `{offset, length}` map shared by the `Range`
variants. -/
def encRangeFields (o l : Nat) : List Nat :=
  cborHead 5 2 ++ encText keyOffset ++ encUint o ++ encText keyLength ++ encUint l

/-- Encoding of a `SignableSource` (externally tagged enum). -/
def encSignableSource (s : SignableSource) : List Nat :=
  match s with
  | .Whole => encText nameWhole
  | .Range o l => cborHead 5 1 ++ encText nameRange ++ encRangeFields o l

/-- Encoding of a `Signable` (externally tagged enum). -/
def encSignable (s : Signable) : List Nat :=
  match s with
  | .Whole => encText nameWhole
  | .Range o l => cborHead 5 1 ++ encText nameRange ++ encRangeFields o l
  | .HashThenSign h src =>
      cborHead 5 1 ++ encText nameHashThenSign ++ cborHead 5 2 ++
        encText keyHash ++ encHashAlg h ++ encText keySource ++ encSignableSource src

/-- `SigningSpec::to_cbor` (total for well-formed descriptors; the `Vec`
writer never fails). -/
def SigningSpec.to_cbor (d : SigningSpec) : List Nat :=
  cborHead 5 5 ++
    encText keyLabel ++ encText d.label ++
    encText keySignable ++ encSignable d.signable ++
    encText keyAlgorithm ++ encSignAlg d.algorithm ++
    encText keyKeySlot ++ encUint d.key_slot ++
    encText keyOutput ++ encOutputSpec d.output

/-- Decoder error (the claims only distinguish success from failure, so the
`ciborium` error kinds are collapsed into one). -/
inductive CborError where
  | malformed
deriving Repr, DecidableEq

/-- Sequencing of parsers over `Except`: feed the remaining input of the
first parser to the second. -/
def pbind (p : Except CborError (α × List Nat))
    (f : α → List Nat → Except CborError (β × List Nat)) :
    Except CborError (β × List Nat) :=
  match p with
  | .ok (a, r) => f a r
  | .error e => .error e

/-- Read exactly `n` bytes from the input. -/
def readN (n : Nat) (l : List Nat) : Except CborError (List Nat × List Nat) :=
  match n, l with
  | 0, l => .ok ([], l)
  | _ + 1, [] => .error .malformed
  | n + 1, c :: rest =>
      match readN n rest with
      | .ok (xs, r) => .ok (c :: xs, r)
      | .error e => .error e

/-- Parse a CBOR head: major type, value, remaining input.  Accepts every
head length (as `ciborium` does), not only the minimal one. -/
def parseHead (l : List Nat) : Except CborError ((Nat × Nat) × List Nat) :=
  match l with
  | [] => .error .malformed
  | b :: rest =>
      let m := b / 32
      let ai := b % 32
      if ai < 24 then .ok ((m, ai), rest)
      else if ai = 24 then
        match rest with
        | x :: r => .ok ((m, x), r)
        | [] => .error .malformed
      else if ai = 25 then
        match rest with
        | x1 :: x2 :: r => .ok ((m, x1 * 256 + x2), r)
        | _ => .error .malformed
      else if ai = 26 then
        match rest with
        | x1 :: x2 :: x3 :: x4 :: r =>
            .ok ((m, ((x1 * 256 + x2) * 256 + x3) * 256 + x4), r)
        | _ => .error .malformed
      else if ai = 27 then
        match rest with
        | x1 :: x2 :: x3 :: x4 :: x5 :: x6 :: x7 :: x8 :: r =>
            .ok ((m, ((((((x1 * 256 + x2) * 256 + x3) * 256 + x4) * 256 + x5) * 256 +
              x6) * 256 + x7) * 256 + x8), r)
        | _ => .error .malformed
      else .error .malformed

/-- Parse an unsigned integer (major type 0). -/
def parseUint (l : List Nat) : Except CborError (Nat × List Nat) :=
  pbind (parseHead l) (fun mn r => if mn.1 = 0 then .ok (mn.2, r) else .error .malformed)

/-- Parse a text string (major type 3), returned as its byte list. -/
def parseText (l : List Nat) : Except CborError (List Nat × List Nat) :=
  pbind (parseHead l) (fun mn r => if mn.1 = 3 then readN mn.2 r else .error .malformed)

/-- Require the next item to be the given text string. -/
def expectText (lit : List Nat) (l : List Nat) : Except CborError (Unit × List Nat) :=
  pbind (parseText l) (fun t r => if t = lit then .ok ((), r) else .error .malformed)

/-- Require the next item to be a definite-length map head of the given
entry count. -/
def expectMap (count : Nat) (l : List Nat) : Except CborError (Unit × List Nat) :=
  pbind (parseHead l)
    (fun mn r => if mn.1 = 5 ∧ mn.2 = count then .ok ((), r) else .error .malformed)

/-- Parse a `HashAlgorithm` variant name. -/
def parseHashAlg (l : List Nat) : Except CborError (HashAlgorithm × List Nat) :=
  pbind (parseText l) (fun t r =>
    if t = nameBlake2b256 then .ok (.Blake2b256, r)
    else if t = nameSha256 then .ok (.Sha256, r)
    else if t = nameSha3_256 then .ok (.Sha3_256, r)
    else .error .malformed)

/-- Parse a `SignAlgorithm` variant name. -/
def parseSignAlg (l : List Nat) : Except CborError (SignAlgorithm × List Nat) :=
  pbind (parseText l) (fun t r =>
    if t = nameEd25519 then .ok (.Ed25519, r)
    else if t = nameSecpEcdsa then .ok (.Secp256k1Ecdsa, r)
    else if t = nameSecpSchnorr then .ok (.Secp256k1Schnorr, r)
    else .error .malformed)

/-- Parse an `OutputSpec` variant name. -/
def parseOutputSpec (l : List Nat) : Except CborError (OutputSpec × List Nat) :=
  pbind (parseText l) (fun t r =>
    if t = nameSignatureOnly then .ok (.SignatureOnly, r)
    else if t = nameAppendToPayload then .ok (.AppendToPayload, r)
    else if t = nameWasmAssemble then .ok (.WasmAssemble, r)
    else .error .malformed)

/-- Parse the `{offset, length}` field map of a `Range` variant. -/
def parseRangeFields (l : List Nat) : Except CborError ((Nat × Nat) × List Nat) :=
  pbind (expectMap 2 l) (fun _ r =>
  pbind (expectText keyOffset r) (fun _ r =>
  pbind (parseUint r) (fun o r =>
  pbind (expectText keyLength r) (fun _ r =>
  pbind (parseUint r) (fun len r => .ok ((o, len), r))))))

/-- Parse a `SignableSource` (text for `Whole`, one-entry map for
`Range`). -/
def parseSignableSource (l : List Nat) : Except CborError (SignableSource × List Nat) :=
  pbind (parseHead l) (fun mn r =>
    if mn.1 = 3 then
      pbind (readN mn.2 r) (fun t r =>
        if t = nameWhole then .ok (.Whole, r) else .error .malformed)
    else if mn.1 = 5 ∧ mn.2 = 1 then
      pbind (expectText nameRange r) (fun _ r =>
        pbind (parseRangeFields r) (fun ol r => .ok (.Range ol.1 ol.2, r)))
    else .error .malformed)

/-- Parse a `Signable` (text for `Whole`, one-entry map for `Range` and
`HashThenSign`). -/
def parseSignable (l : List Nat) : Except CborError (Signable × List Nat) :=
  pbind (parseHead l) (fun mn r =>
    if mn.1 = 3 then
      pbind (readN mn.2 r) (fun t r =>
        if t = nameWhole then .ok (.Whole, r) else .error .malformed)
    else if mn.1 = 5 ∧ mn.2 = 1 then
      pbind (parseText r) (fun t r =>
        if t = nameRange then
          pbind (parseRangeFields r) (fun ol r => .ok (.Range ol.1 ol.2, r))
        else if t = nameHashThenSign then
          pbind (expectMap 2 r) (fun _ r =>
          pbind (expectText keyHash r) (fun _ r =>
          pbind (parseHashAlg r) (fun h r =>
          pbind (expectText keySource r) (fun _ r =>
          pbind (parseSignableSource r) (fun src r =>
            .ok (.HashThenSign h src, r))))))
        else .error .malformed)
    else .error .malformed)

/-- Parse a `u8` field (`serde` rejects values above 255). -/
def parseKeySlot (l : List Nat) : Except CborError (Nat × List Nat) :=
  pbind (parseUint l) (fun n r => if n < 256 then .ok (n, r) else .error .malformed)

/-- Parse one complete `SigningSpec` CBOR item, returning the remaining
input. -/
def parseSpecItem (l : List Nat) : Except CborError (SigningSpec × List Nat) :=
  pbind (expectMap 5 l) (fun _ r =>
  pbind (expectText keyLabel r) (fun _ r =>
  pbind (parseText r) (fun label r =>
  pbind (expectText keySignable r) (fun _ r =>
  pbind (parseSignable r) (fun signable r =>
  pbind (expectText keyAlgorithm r) (fun _ r =>
  pbind (parseSignAlg r) (fun algorithm r =>
  pbind (expectText keyKeySlot r) (fun _ r =>
  pbind (parseKeySlot r) (fun key_slot r =>
  pbind (expectText keyOutput r) (fun _ r =>
  pbind (parseOutputSpec r) (fun output r =>
    .ok (⟨label, signable, algorithm, key_slot, output⟩, r))))))))))))

/-- `SigningSpec::from_cbor` — `ciborium::from_reader` reads exactly one
CBOR item from the reader and leaves trailing bytes unread. -/
def SigningSpec.from_cbor (l : List Nat) : Except CborError SigningSpec :=
  match parseSpecItem l with
  | .ok (d, _) => .ok d
  | .error e => .error e

deriving instance DecidableEq for Except

/-! ## Sandbox result-pointer validation (`wasm_sandbox.rs`)

After the guest entry point returns a pointer, both `interpret` and
`assemble` read a 4-byte little-endian length `n` at the returned offset
and then `n` output bytes.  `interpret` validates the offset range and
returns `OutputOverflow` on violation; `assemble` slices guest memory
without those checks, so an out-of-range offset panics (Rust slice
indexing) instead of returning an error.  Guest memory is the byte list
`mem`; the returned pointer is the offset `r` (`result_ptr as usize`). -/

/-- The `wasm_sandbox.rs::SandboxError` variants reachable from the result
read-back. -/
inductive SandboxError where
  | NullPointer
  | OutputOverflow (n : Nat)
deriving Repr, DecidableEq

/-- Outcome of the host-side result read: returned bytes, a returned
error, or a Rust panic. -/
inductive HostRead where
  | ok (bytes : List Nat)
  | err (e : SandboxError)
  | crash
deriving Repr, DecidableEq

/-- The 4-byte little-endian length prefix at offset `r` of `mem`. -/
def resultLen (mem : List Nat) (r : Nat) : Nat :=
  leNum ((mem.drop r).take 4)

/-- `SandboxModule::interpret`, host-side read of the guest result
(`wasm_sandbox.rs` lines 104–123): reject a null pointer, reject when the
4-byte length prefix or the declared `n` bytes extend past guest memory,
otherwise return the `n` bytes after the prefix. -/
def interpretReadResult (mem : List Nat) (r : Nat) : HostRead :=
  if r = 0 then .err .NullPointer
  else if r + 4 > mem.length then .err (.OutputOverflow (r + 4))
  else
    let n := resultLen mem r
    if r + 4 + n > mem.length then .err (.OutputOverflow n)
    else .ok ((mem.drop (r + 4)).take n)

/-- `SandboxModule::assemble`, host-side read of the guest result
(`wasm_sandbox.rs` lines 165–176): reject a null pointer, then slice
`mem[r..r+4]` and `mem[r+4..r+4+n]` without bounds validation — an
out-of-range slice is a Rust panic. -/
def assembleReadResult (mem : List Nat) (r : Nat) : HostRead :=
  if r = 0 then .err .NullPointer
  else if r + 4 > mem.length then .crash
  else
    let n := resultLen mem r
    if r + 4 + n > mem.length then .crash
    else .ok ((mem.drop (r + 4)).take n)

/-! ## Simulated secure element (`signer-sim/src/keystore.rs`)

The persistent-state fields of `SimSecureElement` (the keystore path and
disk persistence are outside the claims; `save` only re-serializes the
state).  Key slots map `u8` slot numbers to 32-byte seeds. -/

/-- `keystore.rs::SimSecureElement` state. -/
structure SimSecureElement where
  pin_hash : Option (List Nat)
  keys : Nat → Option (List Nat)
  pin_verified : Bool

/-- `signer-hal::HalError` (string payloads kept verbatim). -/
inductive HalError where
  | Storage (msg : String)
deriving Repr, DecidableEq

/-- `SimSecureElement::require_pin`. -/
def requirePin (se : SimSecureElement) : Except HalError Unit :=
  if !se.pin_verified then .error (.Storage "PIN not verified") else .ok ()

/-- `SimSecureElement::sign`: require a verified PIN, look up the slot's
seed, and return the Ed25519 signature of the message under that seed
(`ed25519_dalek::SigningKey::from_bytes(seed).sign(hash)`). -/
def seSign (se : SimSecureElement) (slot : Nat) (hash : List Nat) :
    Except HalError (List Nat) :=
  match requirePin se with
  | .error e => .error e
  | .ok () =>
      match se.keys slot with
      | none => .error (.Storage ("no key in slot " ++ toString slot))
      | some seed => .ok (ed25519Sign seed hash)

/-- `SimSecureElement::export_seed`: look up the slot's seed — with no
`require_pin` call. -/
def seExportSeed (se : SimSecureElement) (slot : Nat) : Except HalError (List Nat) :=
  match se.keys slot with
  | none => .error (.Storage ("no key in slot " ++ toString slot))
  | some seed => .ok seed

/-! ## Display rendering (`display.rs`)

`serde_json::Value` is embedded as `Json`; object members are listed in
the iteration order of the underlying map, and numbers carry the text they
render to (`Number::to_string`), which keeps the embedding faithful for
every number shape (integer or float) without re-implementing float
formatting. -/

/-- `display.rs::DisplayLine`. -/
structure DisplayLine where
  indent : Nat
  key : Option String
  value : String
deriving Repr, DecidableEq

/-- `serde_json::Value`. -/
inductive Json where
  | obj (members : List (String × Json))
  | arr (elems : List Json)
  | str (s : String)
  | num (rendered : String)
  | bool (b : Bool)
  | null

mutual

/-- `display.rs::flatten` — mutually with the member and element loops.
An object or array with a key emits its parent line, then recurses into
children one indent deeper; a leaf emits a single line. -/
def flatten (v : Json) (indent : Nat) (key : Option String) : List DisplayLine :=
  match v with
  | .obj ms =>
      (match key with
       | some k => [⟨indent, some k, ""⟩]
       | none => []) ++ flattenMembers ms (indent + 1)
  | .arr es =>
      (match key with
       | some k => [⟨indent, some k, "[" ++ toString es.length ++ " items]"⟩]
       | none => []) ++ flattenElems es (indent + 1) 0
  | .str s => [⟨indent, key, s⟩]
  | .num s => [⟨indent, key, s⟩]
  | .bool b => [⟨indent, key, if b then "true" else "false"⟩]
  | .null => [⟨indent, key, "null"⟩]

def flattenMembers (ms : List (String × Json)) (indent : Nat) : List DisplayLine :=
  match ms with
  | [] => []
  | (k, v) :: rest => flatten v indent (some k) ++ flattenMembers rest indent

def flattenElems (es : List Json) (indent : Nat) (i : Nat) : List DisplayLine :=
  match es with
  | [] => []
  | v :: rest =>
      flatten v indent (some ("[" ++ toString i ++ "]")) ++ flattenElems rest indent (i + 1)

end

/-- `display.rs::json_to_lines`: flatten from depth 0 with no key. -/
def json_to_lines (v : Json) : List DisplayLine := flatten v 0 none

/-! ## Flow: PIN entry and review scrolling (`signer-sim/src/flow.rs`) -/

/-- `signer-hal::ButtonEvent`. -/
inductive ButtonEvent where
  | Confirm
  | Reject
  | Up
  | Down
deriving Repr, DecidableEq

/-- One step outcome of the `enter_pin` loop: keep looping with new
digits/position, return the committed PIN, or cancel (`None`). -/
inductive PinStep where
  | continue (digits : List Nat) (pos : Nat)
  | done (pin : List Nat)
  | cancelled
deriving Repr, DecidableEq

/-- One iteration of the `enter_pin` event loop (`flow.rs` lines 63–84):
Up and Down cycle the current digit modulo 10 (`(d + 1) % 10` and
`(d + 9) % 10`), Confirm advances and at the last of the four positions
returns the digits as ASCII bytes (`b'0' + d`), Reject retreats and at
position 0 cancels. -/
def pinStep (digits : List Nat) (pos : Nat) : ButtonEvent → PinStep
  | .Up => .continue (digits.set pos ((digits.getD pos 0 + 1) % 10)) pos
  | .Down => .continue (digits.set pos ((digits.getD pos 0 + 9) % 10)) pos
  | .Confirm =>
      if pos + 1 ≥ 4 then .done (digits.map (fun d => 48 + d))
      else .continue digits (pos + 1)
  | .Reject => if pos = 0 then .cancelled else .continue digits (pos - 1)

/-- The digit mark shown at position `i` of the PIN display (`flow.rs`
lines 20–32): `*` for committed positions, the live digit's character for
the current position, `_` for positions not yet reached. -/
def pinMark (digits : List Nat) (pos i : Nat) : Char :=
  if i < pos then '*'
  else if i = pos then Char.ofNat (48 + digits.getD i 0)
  else '_'

/-- The PIN display line body: the four digit marks separated by single
spaces. -/
def pinDisplay (digits : List Nat) (pos : Nat) : List Char :=
  (List.range 4).flatMap (fun i =>
    (if i > 0 then [' '] else []) ++ [pinMark digits pos i])

/-- One iteration of the review scroll loop (`run_once`, `flow.rs` lines
217–230): Up is a saturating decrement, Down increments up to `maxScroll`;
Confirm and Reject leave the cursor and exit the loop. -/
def scrollStep (maxScroll : Nat) (s : Nat) : ButtonEvent → Nat
  | .Up => s - 1
  | .Down => min maxScroll (s + 1)
  | .Confirm => s
  | .Reject => s

/-- The scroll cursor after a sequence of button events, starting from 0
with `max_scroll = lines.len().saturating_sub(1)`. -/
def reviewScroll (lines : List DisplayLine) (events : List ButtonEvent) : Nat :=
  events.foldl (scrollStep (lines.length - 1)) 0

/-- Range fields of a `SignableSource` fit in `usize`. -/
def SignableSource.rangesOk : SignableSource → Prop
  | .Range o l => o < USIZE ∧ l < USIZE
  | .Whole => True

instance : (s : SignableSource) → Decidable s.rangesOk
  | .Whole => inferInstanceAs (Decidable True)
  | .Range _ _ => inferInstanceAs (Decidable (_ ∧ _))

/-- A 32-byte test seed. -/
def seed42 : List Nat := List.replicate 32 42

/-- A secure-element state with a verified session and a key in slot 0. -/
def seVerified : SimSecureElement :=
  ⟨some (sha256 [49, 50, 51, 52]), fun s => if s = 0 then some seed42 else none, true⟩

/-- The same secure-element state but with no verified session. -/
def seUnverified : SimSecureElement :=
  ⟨some (sha256 [49, 50, 51, 52]), fun s => if s = 0 then some seed42 else none, false⟩

/-- A concrete descriptor exercising the `Range` variant. -/
def specO : SigningSpec := ⟨[84, 120], .Range 2 4, .Ed25519, 1, .SignatureOnly⟩

/-- A concrete descriptor exercising `HashThenSign` over a range. -/
def specV : SigningSpec :=
  ⟨[76, 97, 98], .HashThenSign .Blake2b256 (.Range 3 5), .Ed25519, 0, .WasmAssemble⟩

/-- A concrete descriptor exercising `HashThenSign .Sha3_256 .Whole`. -/
def specW : SigningSpec :=
  ⟨[65], .HashThenSign .Sha3_256 .Whole, .Secp256k1Schnorr, 9, .AppendToPayload⟩

/-! ## Supporting lemmas -/

lemma pbind_ok (a : α) (r : List Nat) (f : α → List Nat → Except CborError (β × List Nat)) :
    pbind (.ok (a, r)) f = f a r := rfl

lemma readN_exact (s r : List Nat) : readN s.length (s ++ r) = .ok (s, r) := by
  induction s with
  | nil => rfl
  | cons c t ih => simp [readN, ih]

lemma parseHead_enc (m n : Nat) (hn : n < USIZE) (r : List Nat) :
    parseHead (cborHead m n ++ r) = .ok ((m, n), r) := by
  unfold cborHead USIZE at *
  split_ifs with h1 h2 h3 h4
  · have e1 : (32 * m + n) / 32 = m := by omega
    have e2 : (32 * m + n) % 32 = n := by omega
    simp [parseHead, e1, e2, h1]
  · have e1 : (32 * m + 24) / 32 = m := by omega
    have e2 : (32 * m + 24) % 32 = 24 := by omega
    simp [parseHead, e1, e2]
  · have e1 : (32 * m + 25) / 32 = m := by omega
    have e2 : (32 * m + 25) % 32 = 25 := by omega
    simp [parseHead, e1, e2]
    omega
  · have e1 : (32 * m + 26) / 32 = m := by omega
    have e2 : (32 * m + 26) % 32 = 26 := by omega
    simp [parseHead, e1, e2]
    omega
  · have e1 : (32 * m + 27) / 32 = m := by omega
    have e2 : (32 * m + 27) % 32 = 27 := by omega
    simp [parseHead, e1, e2]
    omega

lemma parseText_enc (s : List Nat) (hs : s.length < USIZE) (r : List Nat) :
    parseText (encText s ++ r) = .ok (s, r) := by
  have h1 : encText s ++ r = cborHead 3 s.length ++ (s ++ r) := by simp [encText]
  rw [parseText, h1, parseHead_enc 3 s.length hs]
  simp [pbind, readN_exact]

lemma parseUint_enc (n : Nat) (hn : n < USIZE) (r : List Nat) :
    parseUint (encUint n ++ r) = .ok (n, r) := by
  rw [parseUint, encUint, parseHead_enc 0 n hn]
  simp [pbind]

lemma expectText_enc (lit : List Nat) (hl : lit.length < USIZE) (r : List Nat) :
    expectText lit (encText lit ++ r) = .ok ((), r) := by
  rw [expectText, parseText_enc lit hl r]
  simp [pbind]

lemma expectMap_enc (c : Nat) (hc : c < USIZE) (r : List Nat) :
    expectMap c (cborHead 5 c ++ r) = .ok ((), r) := by
  rw [expectMap, parseHead_enc 5 c hc]
  simp [pbind]

lemma parseHashAlg_enc (h : HashAlgorithm) (r : List Nat) :
    parseHashAlg (encHashAlg h ++ r) = .ok (h, r) := by
  cases h <;>
    rw [parseHashAlg, encHashAlg] <;>
    rw [parseText_enc _ (by decide) r] <;>
    simp [pbind, nameBlake2b256, nameSha256, nameSha3_256]

lemma parseSignAlg_enc (a : SignAlgorithm) (r : List Nat) :
    parseSignAlg (encSignAlg a ++ r) = .ok (a, r) := by
  cases a <;>
    rw [parseSignAlg, encSignAlg] <;>
    rw [parseText_enc _ (by decide) r] <;>
    simp [pbind, nameEd25519, nameSecpEcdsa, nameSecpSchnorr]

lemma parseOutputSpec_enc (o : OutputSpec) (r : List Nat) :
    parseOutputSpec (encOutputSpec o ++ r) = .ok (o, r) := by
  cases o <;>
    rw [parseOutputSpec, encOutputSpec] <;>
    rw [parseText_enc _ (by decide) r] <;>
    simp [pbind, nameSignatureOnly, nameAppendToPayload, nameWasmAssemble]

lemma parseRangeFields_enc (o l : Nat) (ho : o < USIZE) (hl : l < USIZE) (r : List Nat) :
    parseRangeFields (encRangeFields o l ++ r) = .ok ((o, l), r) := by
  rw [parseRangeFields, encRangeFields]
  simp only [List.append_assoc]
  rw [expectMap_enc 2 (by decide)]
  simp only [pbind_ok]
  rw [expectText_enc keyOffset (by decide)]
  simp only [pbind_ok]
  rw [parseUint_enc o ho]
  simp only [pbind_ok]
  rw [expectText_enc keyLength (by decide)]
  simp only [pbind_ok]
  rw [parseUint_enc l hl]
  simp only [pbind_ok]

lemma parseSignableSource_enc (s : SignableSource) (hs : s.rangesOk) (r : List Nat) :
    parseSignableSource (encSignableSource s ++ r) = .ok (s, r) := by
  cases s with
  | Whole =>
      have h1 : encSignableSource .Whole ++ r =
          cborHead 3 nameWhole.length ++ (nameWhole ++ r) := by
        simp [encSignableSource, encText]
      rw [parseSignableSource, h1, parseHead_enc 3 nameWhole.length (by decide)]
      simp [pbind, readN_exact]
  | Range o l =>
      obtain ⟨ho, hl⟩ := hs
      have h1 : encSignableSource (.Range o l) ++ r =
          cborHead 5 1 ++ (encText nameRange ++ (encRangeFields o l ++ r)) := by
        simp [encSignableSource]
      rw [parseSignableSource, h1, parseHead_enc 5 1 (by decide)]
      rw [pbind_ok]
      norm_num
      rw [expectText_enc nameRange (by decide), pbind_ok, parseRangeFields_enc o l ho hl,
        pbind_ok]

lemma hts_source_rangesOk (h : HashAlgorithm) (src : SignableSource)
    (hs : (Signable.HashThenSign h src).rangesOk) : src.rangesOk := by
  cases src <;> simp_all [Signable.rangesOk, SignableSource.rangesOk]

lemma parseSignable_enc (s : Signable) (hs : s.rangesOk) (r : List Nat) :
    parseSignable (encSignable s ++ r) = .ok (s, r) := by
  cases s with
  | Whole =>
      have h1 : encSignable .Whole ++ r = cborHead 3 nameWhole.length ++ (nameWhole ++ r) := by
        simp [encSignable, encText]
      rw [parseSignable, h1, parseHead_enc 3 nameWhole.length (by decide)]
      simp [pbind, readN_exact]
  | Range o l =>
      obtain ⟨ho, hl⟩ := hs
      have h1 : encSignable (.Range o l) ++ r =
          cborHead 5 1 ++ (encText nameRange ++ (encRangeFields o l ++ r)) := by
        simp [encSignable]
      rw [parseSignable, h1, parseHead_enc 5 1 (by decide)]
      rw [pbind_ok]
      norm_num
      rw [parseText_enc nameRange (by decide), pbind_ok]
      norm_num
      rw [parseRangeFields_enc o l ho hl, pbind_ok]
  | HashThenSign h src =>
      have hsrc := hts_source_rangesOk h src hs
      have h1 : encSignable (.HashThenSign h src) ++ r =
          cborHead 5 1 ++ (encText nameHashThenSign ++ (cborHead 5 2 ++ (encText keyHash ++
            (encHashAlg h ++ (encText keySource ++ (encSignableSource src ++ r)))))) := by
        simp [encSignable]
      rw [parseSignable, h1, parseHead_enc 5 1 (by decide)]
      rw [pbind_ok]
      norm_num
      rw [parseText_enc nameHashThenSign (by decide), pbind_ok]
      rw [if_neg (by decide), if_pos rfl]
      rw [expectMap_enc 2 (by decide), pbind_ok]
      rw [expectText_enc keyHash (by decide), pbind_ok]
      rw [parseHashAlg_enc h, pbind_ok]
      rw [expectText_enc keySource (by decide), pbind_ok]
      rw [parseSignableSource_enc src hsrc, pbind_ok]

lemma parseSpecItem_enc (d : SigningSpec) (hd : d.wf) (r : List Nat) :
    parseSpecItem (d.to_cbor ++ r) = .ok (d, r) := by
  obtain ⟨label, signable, algorithm, key_slot, output⟩ := d
  obtain ⟨h1, h2, h3⟩ := hd
  have h1' : label.length < USIZE := h1
  have h2' : key_slot < 256 := h2
  have h3' : signable.rangesOk := h3
  have e1 : SigningSpec.to_cbor ⟨label, signable, algorithm, key_slot, output⟩ ++ r =
      cborHead 5 5 ++ (encText keyLabel ++ (encText label ++ (encText keySignable ++
        (encSignable signable ++ (encText keyAlgorithm ++ (encSignAlg algorithm ++
          (encText keyKeySlot ++ (encUint key_slot ++ (encText keyOutput ++
            (encOutputSpec output ++ r)))))))))) := by
    simp [SigningSpec.to_cbor]
  rw [parseSpecItem, e1, expectMap_enc 5 (by decide), pbind_ok]
  rw [expectText_enc keyLabel (by decide), pbind_ok]
  rw [parseText_enc label h1', pbind_ok]
  rw [expectText_enc keySignable (by decide), pbind_ok]
  rw [parseSignable_enc signable h3', pbind_ok]
  rw [expectText_enc keyAlgorithm (by decide), pbind_ok]
  rw [parseSignAlg_enc algorithm, pbind_ok]
  rw [expectText_enc keyKeySlot (by decide), pbind_ok]
  rw [parseKeySlot, parseUint_enc key_slot (Nat.lt_trans h2' (by decide)), pbind_ok,
    if_pos h2', pbind_ok]
  rw [expectText_enc keyOutput (by decide), pbind_ok]
  rw [parseOutputSpec_enc output, pbind_ok]

lemma hash_bytes_len (h : HashAlgorithm) (data : List Nat) :
    (hash_bytes h data).length = 32 := by
  cases h <;> simp [hash_bytes, blake2b256, sha256, sha3_256]

lemma scroll_foldl_le (m : Nat) (events : List ButtonEvent) (s : Nat) (h : s ≤ m) :
    events.foldl (scrollStep m) s ≤ m := by
  induction events generalizing s with
  | nil => simpa
  | cons e rest ih =>
      cases e <;> exact ih _ (by simp only [scrollStep]; omega)

/-! ## Claim theorems -/

/-- C1: for both sandbox entry points the host must reject, with an error,
a returned result pointer `r` that is zero or whose 4-byte length prefix or
declared `n` bytes extend past guest memory, and may only return the `n`
bytes when all checks pass.  `interpret` conforms, but `assemble` omits the
two bounds checks and panics (unchecked slice) on the same inputs: the code
violates the claim for `assemble`. -/
theorem sandbox_assemble_unchecked_result_crashes :
    interpretReadResult (List.replicate 8 0) 0 = .err .NullPointer ∧
    assembleReadResult (List.replicate 8 0) 0 = .err .NullPointer ∧
    interpretReadResult (List.replicate 8 0) 6 = .err (.OutputOverflow 10) ∧
    assembleReadResult (List.replicate 8 0) 6 = .crash ∧
    interpretReadResult [0, 0, 0, 0, 255, 255, 255, 255] 4 =
      .err (.OutputOverflow 4294967295) ∧
    assembleReadResult [0, 0, 0, 0, 255, 255, 255, 255] 4 = .crash ∧
    interpretReadResult [9, 2, 0, 0, 0, 7, 8, 0] 1 = .ok [7, 8] := by
  decide

/-- C2: `extract_signable` on a `Range` whose `offset + length` overflows
is claimed to fail with `RangeOutOfBounds`; in fact the code panics there
(debug: overflow panic at the addition; release: the wrapped end makes the
slice `payload[offset..end]` panic).  In-bounds, out-of-bounds and
zero-length ranges behave as claimed. -/
theorem extract_range_overflow_crashes :
    extract_signable [] (.Range 18446744073709551615 1) = .crash ∧
    extract_signable [48, 49, 50, 51, 52] (.Range 2 100) =
      .err (.RangeOutOfBounds 2 102 5) ∧
    extract_signable [48, 49, 50, 51, 52] (.Range 5 0) = .ok [] ∧
    extract_signable [48, 49, 50, 51, 52, 53, 54, 55, 56, 57] (.Range 2 4) =
      .ok [50, 51, 52, 53] := by
  decide

/-- C3: decoding the CBOR encoding of any well-formed descriptor yields the
descriptor back exactly. -/
theorem descriptor_cbor_round_trip (d : SigningSpec) (hd : d.wf) :
    SigningSpec.from_cbor (SigningSpec.to_cbor d) = .ok d := by
  have h := parseSpecItem_enc d hd []
  rw [List.append_nil] at h
  unfold SigningSpec.from_cbor
  rw [h]

theorem descriptor_cbor_round_trip_witness :
    specV.wf ∧ SigningSpec.from_cbor (SigningSpec.to_cbor specV) = .ok specV :=
  ⟨by decide, descriptor_cbor_round_trip specV (by decide)⟩

/-- C4: `sign` on the simulated secure element fails without signing when
the session PIN is not verified, fails when the slot is empty, and with
both preconditions returns the Ed25519 signature of the message under the
slot's seed. -/
theorem se_sign_requires_pin_and_slot (se : SimSecureElement) (slot : Nat)
    (msg seed : List Nat) :
    (se.pin_verified = false → seSign se slot msg = .error (.Storage "PIN not verified")) ∧
    (se.pin_verified = true → se.keys slot = none →
      seSign se slot msg = .error (.Storage ("no key in slot " ++ toString slot))) ∧
    (se.pin_verified = true → se.keys slot = some seed →
      seSign se slot msg = .ok (ed25519Sign seed msg)) := by
  refine ⟨fun h1 => ?_, fun h1 h2 => ?_, fun h1 h2 => ?_⟩ <;>
    simp_all [seSign, requirePin]

theorem se_sign_requires_pin_and_slot_witness :
    seUnverified.pin_verified = false ∧
    seSign seUnverified 0 [1, 2, 3] = .error (.Storage "PIN not verified") ∧
    seVerified.keys 1 = none ∧
    seSign seVerified 1 [1, 2, 3] = .error (.Storage ("no key in slot " ++ toString 1)) ∧
    seVerified.keys 0 = some seed42 ∧
    seSign seVerified 0 [1, 2, 3] = .ok (ed25519Sign seed42 [1, 2, 3]) :=
  ⟨rfl, (se_sign_requires_pin_and_slot seUnverified 0 [1, 2, 3] []).1 rfl,
   rfl, (se_sign_requires_pin_and_slot seVerified 1 [1, 2, 3] []).2.1 rfl rfl,
   rfl, (se_sign_requires_pin_and_slot seVerified 0 [1, 2, 3] seed42).2.2 rfl rfl⟩

/-- C5: from every reachable PIN-entry state (four digits below 10,
position below 4): Up replaces the current digit by `(d+1) mod 10` leaving
the others unchanged, Down replaces it by `(d+9) mod 10 = (d-1) mod 10`,
Confirm advances and at the last digit returns the digits as ASCII bytes,
Reject retreats and cancels at position 0; the display shows `*` for
committed positions, the live digit's character at the current position,
and `_` afterwards. -/
theorem pin_entry_step (digits : List Nat) (pos : Nat) (hlen : digits.length = 4)
    (hpos : pos < 4) (hdig : ∀ d ∈ digits, d < 10) :
    (pinStep digits pos .Up =
      .continue (digits.set pos ((digits.getD pos 0 + 1) % 10)) pos) ∧
    ((digits.set pos ((digits.getD pos 0 + 1) % 10)).getD pos 0 =
      (digits.getD pos 0 + 1) % 10) ∧
    (∀ j, j ≠ pos →
      (digits.set pos ((digits.getD pos 0 + 1) % 10)).getD j 0 = digits.getD j 0) ∧
    (pinStep digits pos .Down =
      .continue (digits.set pos ((digits.getD pos 0 + 9) % 10)) pos) ∧
    ((((digits.getD pos 0 + 9) % 10 : Nat) : Int) = ((digits.getD pos 0 : Int) - 1) % 10) ∧
    (pos < 3 → pinStep digits pos .Confirm = .continue digits (pos + 1)) ∧
    (pos = 3 → pinStep digits pos .Confirm = .done (digits.map (fun d => 48 + d))) ∧
    ((digits.map (fun d => 48 + d)).length = 4) ∧
    (pos = 0 → pinStep digits pos .Reject = .cancelled) ∧
    (0 < pos → pinStep digits pos .Reject = .continue digits (pos - 1)) ∧
    (∀ i, i < 4 → (pinDisplay digits pos).getD (2 * i) ' ' =
      (if i < pos then '*'
       else if i = pos then Char.ofNat (48 + digits.getD i 0) else '_')) := by
  have hmem : digits.getD pos 0 ∈ digits := by
    rw [List.getD_eq_getElem digits 0 (by omega)]
    exact List.getElem_mem _
  have h10 : digits.getD pos 0 < 10 := hdig _ hmem
  have hd4 : pinDisplay digits pos = [pinMark digits pos 0, ' ', pinMark digits pos 1, ' ',
      pinMark digits pos 2, ' ', pinMark digits pos 3] := rfl
  refine ⟨rfl, ?_, ?_, rfl, ?_, ?_, ?_, ?_, ?_, ?_, ?_⟩
  · simp [List.getD_eq_getElem?_getD, List.getElem?_set_self, (by omega : pos < digits.length)]
  · intro j hj
    simp [List.getD_eq_getElem?_getD, List.getElem?_set_ne (by omega : pos ≠ j)]
  · omega
  · intro h3
    simp only [pinStep]
    rw [if_neg (by omega)]
  · intro h3
    simp only [pinStep]
    rw [if_pos (by omega)]
  · simp [hlen]
  · intro h3
    simp [pinStep, h3]
  · intro h3
    simp only [pinStep]
    rw [if_neg (by omega)]
  · intro i hi
    interval_cases i <;> simp [hd4, pinMark]

theorem pin_entry_step_witness :
    pinStep [1, 2, 3, 4] 2 .Down =
      .continue ([1, 2, 3, 4].set 2 (([1, 2, 3, 4].getD 2 0 + 9) % 10)) 2 ∧
    pinStep [1, 2, 3, 4] 3 .Confirm = .done ([1, 2, 3, 4].map (fun d => 48 + d)) :=
  ⟨(pin_entry_step [1, 2, 3, 4] 2 rfl (by decide) (by decide)).2.2.2.1,
   (pin_entry_step [1, 2, 3, 4] 3 rfl (by decide) (by decide)).2.2.2.2.2.2.1 rfl⟩

/-- C6: during review, starting from 0, the scroll cursor stays within
`[0, max(0, lines.len() - 1)]` after every button sequence; Up is a
saturating decrement, Down saturates at `max_scroll`, Confirm and Reject
leave the cursor. -/
theorem review_scroll_bounds (lines : List DisplayLine) (events : List ButtonEvent)
    (m s : Nat) :
    reviewScroll lines events ≤ lines.length - 1 ∧
    scrollStep m s .Up = s - 1 ∧
    scrollStep m s .Down = min m (s + 1) ∧
    scrollStep m s .Confirm = s ∧
    scrollStep m s .Reject = s :=
  ⟨scroll_foldl_le _ events 0 (Nat.zero_le _), rfl, rfl, rfl, rfl⟩

/-- C7 counterexample: with an out-of-bounds source range,
`extract_signable` on `HashThenSign` returns `RangeOutOfBounds` — not a
32-byte vector — so the unconditional claim fails. -/
theorem extract_hash_not_always_32 :
    extract_signable [] (.HashThenSign .Blake2b256 (.Range 0 1)) =
      .err (.RangeOutOfBounds 0 1 0) ∧
    ∀ bs : List Nat,
      extract_signable [] (.HashThenSign .Blake2b256 (.Range 0 1)) ≠ .ok bs := by
  have h1 : extract_signable [] (.HashThenSign .Blake2b256 (.Range 0 1)) =
      .err (.RangeOutOfBounds 0 1 0) := by decide
  exact ⟨h1, fun bs h => by rw [h1] at h; exact ExtractOutcome.noConfusion h⟩

/-- C7 (amended): whenever `extract_signable` succeeds on a `HashThenSign`
descriptor it returns exactly 32 bytes, for each of the three hash
algorithms and both source shapes. -/
theorem extract_hash_then_sign_len32 (p : List Nat) (h : HashAlgorithm)
    (src : SignableSource) (bs : List Nat)
    (hok : extract_signable p (.HashThenSign h src) = .ok bs) : bs.length = 32 := by
  cases src with
  | Whole =>
      simp only [extract_signable, ExtractOutcome.ok.injEq] at hok
      rw [← hok]
      exact hash_bytes_len h p
  | Range o l =>
      cases hsl : sliceRange p o l with
      | ok bytes =>
          simp only [extract_signable, hsl, ExtractOutcome.ok.injEq] at hok
          rw [← hok]
          exact hash_bytes_len h bytes
      | err e => simp [extract_signable, hsl] at hok
      | crash => simp [extract_signable, hsl] at hok

theorem extract_hash_then_sign_len32_witness :
    extract_signable [1, 2, 3] (.HashThenSign .Sha256 .Whole) =
      .ok (hash_bytes .Sha256 [1, 2, 3]) ∧
    (hash_bytes .Sha256 [1, 2, 3]).length = 32 :=
  ⟨rfl, extract_hash_then_sign_len32 [1, 2, 3] .Sha256 .Whole _ rfl⟩

/-- C8 counterexample: a descriptor encoding followed by a non-empty
trailing byte is decoded successfully to the descriptor — trailing bytes
are not rejected. -/
theorem descriptor_cbor_trailing_accepted :
    SigningSpec.from_cbor (SigningSpec.to_cbor specO ++ [0]) = .ok specO := by
  unfold SigningSpec.from_cbor
  rw [parseSpecItem_enc specO (by decide) [0]]

/-- C8 (amended): `from_cbor` reads exactly one CBOR item and ignores any
trailing bytes: decoding `encode(d) ++ t` returns `d` for every suffix
`t`. -/
theorem descriptor_cbor_ignores_trailing (d : SigningSpec) (t : List Nat) (hd : d.wf) :
    SigningSpec.from_cbor (SigningSpec.to_cbor d ++ t) = .ok d := by
  unfold SigningSpec.from_cbor
  rw [parseSpecItem_enc d hd t]

theorem descriptor_cbor_ignores_trailing_witness :
    specW.wf ∧ SigningSpec.from_cbor (SigningSpec.to_cbor specW ++ [7, 7]) = .ok specW :=
  ⟨by decide, descriptor_cbor_ignores_trailing specW [7, 7] (by decide)⟩

/-- C9: `export_seed` requires no verified session: it returns the slot's
seed whenever the slot is populated — the result does not depend on
`pin_verified` at all — and fails only on an empty slot. -/
theorem export_seed_no_pin (se : SimSecureElement) (slot : Nat) (seed : List Nat) :
    (se.keys slot = some seed → seExportSeed se slot = .ok seed) ∧
    (se.keys slot = none →
      seExportSeed se slot = .error (.Storage ("no key in slot " ++ toString slot))) ∧
    (∀ b : Bool, seExportSeed ⟨se.pin_hash, se.keys, b⟩ slot = seExportSeed se slot) := by
  refine ⟨fun h => ?_, fun h => ?_, fun b => rfl⟩ <;> simp [seExportSeed, h]

theorem export_seed_no_pin_witness :
    seUnverified.pin_verified = false ∧
    seUnverified.keys 0 = some seed42 ∧
    seExportSeed seUnverified 0 = .ok seed42 ∧
    seUnverified.keys 3 = none ∧
    seExportSeed seUnverified 3 = .error (.Storage ("no key in slot " ++ toString 3)) :=
  ⟨rfl, rfl, (export_seed_no_pin seUnverified 0 seed42).1 rfl,
   rfl, (export_seed_no_pin seUnverified 3 seed42).2.1 rfl⟩

/-- C10: `json_to_lines` emits no line for the root container itself: a
top-level object or array contributes only its descendants' lines (so the
empty ones flatten to the empty sequence), while a top-level scalar yields
exactly one line with indent 0 and no key. -/
theorem json_root_emits_no_line :
    (∀ ms, json_to_lines (.obj ms) = flattenMembers ms 1) ∧
    (∀ es, json_to_lines (.arr es) = flattenElems es 1 0) ∧
    json_to_lines (.obj []) = [] ∧
    json_to_lines (.arr []) = [] ∧
    (∀ s, json_to_lines (.str s) = [⟨0, none, s⟩]) ∧
    (∀ s, json_to_lines (.num s) = [⟨0, none, s⟩]) ∧
    (∀ b, json_to_lines (.bool b) = [⟨0, none, if b then "true" else "false"⟩]) ∧
    json_to_lines .null = [⟨0, none, "null"⟩] := by
  refine ⟨fun ms => ?_, fun es => ?_, ?_, ?_, fun s => ?_, fun s => ?_, fun b => ?_, ?_⟩ <;>
    simp [json_to_lines, flatten, flattenMembers, flattenElems]
